import Mathlib

/-!
Verification of the ABQ Data Entry application (three Python sources:
`data_entry_app.py`, `data_entry_app_class.py`, `DateEntry.py`).

The development shallowly embeds the pure decision logic of the program:
the per-widget validation rules (`ValidatedMixin` and its subclasses), the
record assembly of `DataRecordForm.get`, and the save handler
`Application._on_save`.  The GUI toolkit itself (event delivery, the Tcl
variable store, the file system) is represented by explicit data:
a form state is a map from field to the string held by its Tcl variable,
the file system is an association list from file name to rows, and a
validation callback invocation is a record of the percent-substitution
arguments Tk passes to `validatecommand`.

Scope notes on library calls that the sources make:
* `str.isdigit`, `str.lower`, Tcl integer/double/boolean conversion and
  `decimal.Decimal` parsing are modelled on ASCII decimal strings, the
  character set reachable from this form; exotic Unicode digit classes,
  hexadecimal Tcl integers, exponent forms and Tcl boolean prefix
  abbreviations are outside the model.
* `datetime.strptime(s, "%Y-%m-%d")` is modelled after CPython
  `_strptime`: the directive "%Y" matches exactly four digits, "%m"
  matches `1[0-2]|0[1-9]|[1-9]` (one OR two digits), "%d" matches
  `3[01]|[12]\d|0[1-9]|[1-9]`, the whole string must be consumed, and the
  resulting triple must be a real calendar date with year at least 1.
-/

/-- Value of an ASCII digit list read as a decimal numeral. -/
def digitsToNat (l : List Char) : Nat :=
  l.foldl (fun a c => a * 10 + (c.toNat - 48)) 0

/-- Digit characters of a natural number, most significant first; the
first argument is recursion fuel (any amount at least the digit count
works, and the top-level wrapper passes enough). -/
def natToDecAux : Nat → Nat → List Char
  | 0, _ => []
  | fuel + 1, n =>
      if n < 10 then [Char.ofNat (48 + n)]
      else natToDecAux fuel (n / 10) ++ [Char.ofNat (48 + n % 10)]

/-- Canonical decimal string of a natural number (the form in which Tk
reports the `%i` insertion index to a `validatecommand`). -/
def natToDecString (n : Nat) : String :=
  String.mk (natToDecAux (n + 1) n)

/-- Models Python `str.isdigit()` applied to a single typed character;
faithful for the ASCII range (non-ASCII Unicode digit classes are out of
scope). -/
def pyCharIsdigit (c : Char) : Bool :=
  c.isDigit

/-- A `decimal.Decimal` value as produced by parsing a plain decimal
string: a signed mantissa together with the exponent that
`Decimal.as_tuple().exponent` reports (minus the number of digits written
after the point). -/
structure PyDec where
  m : Int
  e : Int
deriving DecidableEq, Repr

/-- The integer `a` denotes after scaling by `10 ^ (-k)`, for any `k` at
most `a.e`; two decimals compare like their scalings at a common `k`. -/
def PyDec.scaled (a : PyDec) (k : Int) : Int :=
  a.m * (10 : Int) ^ (a.e - k).toNat

/-- Exact strict comparison of the numbers two decimals denote
(`Decimal` comparison in the sources, and its mixed comparison with the
float configuration bounds, both of which are numerically exact). -/
def pyDecLt (a b : PyDec) : Bool :=
  a.scaled (min a.e b.e) < b.scaled (min a.e b.e)

/-- Split a character list at every occurrence of a separator character
(the splitting the sources perform with `str.split`-like calls on "." and
"-"); mirrors `String.splitOn` for one-character separators. -/
def splitOnChar (sep : Char) : List Char → List (List Char)
  | [] => [[]]
  | c :: t =>
      match splitOnChar sep t with
      | [] => if c = sep then [[], []] else [[c]]
      | h :: r => if c = sep then [] :: h :: r else (c :: h) :: r

/-- Models `decimal.Decimal(s)` on plain sign/digits/point strings
(the subset reachable from the spinbox character filter); returns `none`
where the constructor raises `InvalidOperation`. -/
def parsePyDecimal (s : String) : Option PyDec :=
  let (neg, rest) :=
    match s.toList with
    | '-' :: t => (true, t)
    | '+' :: t => (false, t)
    | t => (false, t)
  match splitOnChar '.' rest with
  | [ip] =>
      if ip ≠ [] ∧ ip.all Char.isDigit then
        some ⟨(if neg then -(digitsToNat ip : Int) else (digitsToNat ip : Int)), 0⟩
      else none
  | [ip, fp] =>
      if ip ++ fp ≠ [] ∧ (ip ++ fp).all Char.isDigit then
        some ⟨(if neg then -(digitsToNat (ip ++ fp) : Int)
               else (digitsToNat (ip ++ fp) : Int)), -(fp.length : Int)⟩
      else none
  | _ => none

/-- Strip factors of ten from a natural mantissa, raising the exponent
accordingly; the first argument is recursion fuel. -/
def stripTrailingZerosAux : Nat → Nat → Int → Nat × Int
  | 0, n, e => (n, e)
  | fuel + 1, n, e =>
      if n ≠ 0 ∧ n % 10 = 0 then stripTrailingZerosAux fuel (n / 10) (e + 1)
      else (n, e)

/-- Strip factors of ten from a natural mantissa, raising the exponent
accordingly (the digit-level content of `Decimal.normalize`). -/
def stripTrailingZeros (n : Nat) (e : Int) : Nat × Int :=
  stripTrailingZerosAux n n e

/-- Models `Decimal.normalize()` to the extent the spinbox needs it:
trailing zeros of the coefficient move into the exponent, and zero
normalizes to exponent 0. -/
def pyDecNormalize (d : PyDec) : PyDec :=
  if d.m = 0 then ⟨0, 0⟩
  else
    let p := stripTrailingZeros d.m.natAbs d.e
    ⟨(if d.m < 0 then -(p.1 : Int) else (p.1 : Int)), p.2⟩

/-- `self.precision` of `ValidatedSpinbox.__init__`:
`Decimal(str(increment)).normalize().as_tuple().exponent`. -/
def precisionOf (incrementText : String) : Int :=
  match parsePyDecimal incrementText with
  | some d => (pyDecNormalize d).e
  | none => 0

/-- Gregorian leap-year test (as used by `datetime`). -/
def isLeapYear (y : Nat) : Bool :=
  (y % 4 == 0 && y % 100 != 0) || (y % 400 == 0)

/-- Number of days of month `m` of year `y` (as enforced by the
`datetime.datetime` constructor). -/
def daysInMonth (y m : Nat) : Nat :=
  if m = 2 then (if isLeapYear y then 29 else 28)
  else if m = 4 ∨ m = 6 ∨ m = 9 ∨ m = 11 then 30
  else 31

/-- Models `datetime.strptime(s, "%Y-%m-%d")` succeeding: exactly four
digits of year, a hyphen, one or two digits of month with value 1..12, a
hyphen, one or two digits of day, the whole string consumed, and the
triple a real calendar date with year at least 1 (see the header comment
for the CPython `_strptime` regular expressions this follows). -/
def strptimeYmd (s : String) : Bool :=
  match splitOnChar '-' s.toList with
  | [ys, ms, ds] =>
      ys.length == 4 && ys.all Char.isDigit &&
      decide (1 ≤ ms.length) && ms.length ≤ 2 && ms.all Char.isDigit &&
      decide (1 ≤ ds.length) && ds.length ≤ 2 && ds.all Char.isDigit &&
      (let y := digitsToNat ys
       let m := digitsToNat ms
       let d := digitsToNat ds
       decide (1 ≤ y) && decide (1 ≤ m) && m ≤ 12 && decide (1 ≤ d) && d ≤ daysInMonth y m)
  | _ => false

/-- `DateEntry._key_validate` of `data_entry_app_class.py` (lines
363-373), for one typed character: deletions (`%d` equal to "0") are
accepted; at the digit positions of an ISO date the character must be a
digit, at positions 4 and 7 it must be a hyphen, anywhere else the
insertion is rejected. -/
def dateKeyValidate (action index : String) (char : Char) : Bool :=
  if action = "0" then true
  else if index ∈ ["0", "1", "2", "3", "5", "6", "8", "9"] then pyCharIsdigit char
  else if index ∈ ["4", "7"] then char = '-'
  else false

/-- `DateEntry._focusout_validate` of `data_entry_app_class.py` (lines
375-385): flags an empty value, then reparses the whole content with
`strptime`; returns the validity verdict together with the message left
in the error variable (empty when valid). -/
def dateFocusoutValidate (content : String) : Bool × String :=
  let valid := true
  let err := ""
  let (valid, err) :=
    if content = "" then (false, "A value is required") else (valid, err)
  if strptimeYmd content then (valid, err) else (false, "Invalid date")

/-- `RequiredEntry._focusout_validate`: a value is required. -/
def requiredFocusoutValidate (content : String) : Bool × String :=
  if content = "" then (false, "A value is required") else (true, "")

/-- `ValidatedRadioGroup.trigger_focusout_validation`: the bound variable
must be non-empty. -/
def radioFocusoutValid (content : String) : Bool :=
  content ≠ ""

/-- Outcome of one `ValidatedCombobox._key_validate` call: the verdict,
the value installed by `self.set(...)` during the call (if any), and
whether the cursor was moved to the end. -/
structure ComboResult where
  valid : Bool
  setTo : Option String
  cursorToEnd : Bool
deriving DecidableEq, Repr

/-- `ValidatedCombobox._key_validate` (lines 391-405): a deletion clears
the whole selection and is accepted; otherwise the proposed text is
matched case-insensitively against the prefixes of the value list; zero
matches reject, a unique match installs the full value, moves the cursor
to the end and rejects the keystroke itself, several matches accept. -/
def comboKeyValidate (values : List String) (proposed action : String) : ComboResult :=
  if action = "0" then { valid := true, setTo := some "", cursorToEnd := false }
  else
    let matching := values.filter (fun x => x.toLower.startsWith proposed.toLower)
    match matching with
    | [] => { valid := false, setTo := none, cursorToEnd := false }
    | [x] => { valid := false, setTo := some x, cursorToEnd := true }
    | _ => { valid := true, setTo := none, cursorToEnd := false }

/-- `ValidatedCombobox._focusout_validate` (lines 407-412). -/
def comboFocusoutValidate (content : String) : Bool × String :=
  if content = "" then (false, "A value is required") else (true, "")

/-- The configuration a `ValidatedSpinbox` reads back at validation time:
`cget("from")`, `cget("to")` and the stored `self.precision`. -/
structure SpinConfig where
  min : PyDec
  max : PyDec
  precision : Int
deriving DecidableEq, Repr

/-- `ValidatedSpinbox._key_validate` (lines 416-447) for one typed
character.  The Python membership test `proposed in "-."` is a substring
test, so besides "-" and "." it also accepts the two-character text "-."
(and the empty string).  `none` marks the path on which
`Decimal(proposed)` raises `InvalidOperation` and the exception escapes
the callback. -/
def spinKeyValidate (cfg : SpinConfig) (char : Char) (index current proposed action : String) :
    Option Bool :=
  if action = "0" then some true
  else
    let noNegative : Bool := decide (0 ≤ cfg.min.m)
    let noDecimal : Bool := decide (0 ≤ cfg.precision)
    if (!("-1234567890." : String).toList.contains char) ||
       ((char = '-') && (noNegative || !(index = "0"))) ||
       ((char = '.') && (noDecimal || current.toList.contains '.')) then
      some false
    else if proposed = "" ∨ proposed = "-" ∨ proposed = "." ∨ proposed = "-." then
      some true
    else
      match parsePyDecimal proposed with
      | none => none
      | some d =>
          if pyDecLt cfg.max d ∨ d.e < cfg.precision then some false else some true

/-- Validity verdict of `ValidatedSpinbox._focusout_validate` (lines
449-467): the content must parse as a `Decimal` and lie between the
configured minimum and maximum (the error messages, which interpolate the
bounds, are not modelled). -/
def spinFocusoutValid (cfg : SpinConfig) (value : String) : Bool :=
  match parsePyDecimal value with
  | none => false
  | some d => !(pyDecLt d cfg.min) && !(pyDecLt cfg.max d)

/-- Foreground colour of a validated widget. -/
inductive Fg where
  | black
  | red
deriving DecidableEq, Repr

/-- The percent-substitution arguments Tk passes to a
`validatecommand` registered by `ValidatedMixin`. -/
structure VEvent where
  proposed : String
  current : String
  char : String
  event : String
  index : String
  action : String
deriving DecidableEq, Repr

/-- Observable state of one validated widget: its error variable, its
foreground colour, and whether it is disabled. -/
structure WState where
  error : String
  fg : Fg
  disabled : Bool
deriving DecidableEq, Repr

/-- The two event-specific rules a `ValidatedMixin` subclass plugs in:
the key rule sees the full percent-substitution record, the focus-out
rule sees the widget content (`self.get()`) and reports the verdict with
the message it writes into the error variable (empty when it writes
none). -/
structure VRules where
  keyValidate : VEvent → Bool
  focusoutValidate : String → Bool × String

/-- One validation callback round for a `ValidatedMixin` widget:
`_validate` (lines 295-313) clears the error variable and resets the
foreground, returns valid for a disabled widget, and otherwise dispatches
on the event type; when the verdict is invalid Tk then runs the
registered `invalidcommand`, whose `_focusout_invalid` branch (line 335)
turns the foreground red while `_key_invalid` does nothing. -/
def validateEvent (r : VRules) (st : WState) (content : String) (ev : VEvent) :
    Bool × WState :=
  let st1 : WState := { st with error := "", fg := Fg.black }
  if st1.disabled then (true, st1)
  else if ev.event = "focusout" then
    let res := r.focusoutValidate content
    let st2 := { st1 with error := res.snd }
    if res.fst then (true, st2) else (false, { st2 with fg := Fg.red })
  else if ev.event = "key" then
    (r.keyValidate ev, st1)
  else (true, st1)

/-- One delivered validation call: the widget text at call time together
with the percent-substitution record. -/
structure WidgetCall where
  content : String
  ev : VEvent
deriving DecidableEq, Repr

/-- Run a sequence of validation callbacks over a widget. -/
def runWidget (r : VRules) (st : WState) (calls : List WidgetCall) : WState :=
  calls.foldl (fun s c => (validateEvent r s c.content c.ev).snd) st

/-- The rules of a `RequiredEntry`: no key rule of its own, focus-out
requires a non-empty value. -/
def requiredEntryRules : VRules where
  keyValidate := fun _ => true
  focusoutValidate := requiredFocusoutValidate

/-- Whether the most recent focus-out validation in a call sequence
failed (the latching behaviour the specification ascribes to the error
variable). -/
def lastFocusoutFailed (r : VRules) (calls : List WidgetCall) : Bool :=
  match (calls.filter (fun c => c.ev.event == "focusout")).getLast? with
  | some c => !(r.focusoutValidate c.content).fst
  | none => false

/-- The four kinds of Tcl control variables the form uses. -/
inductive VarKind where
  | str
  | int
  | double
  | boolean
deriving DecidableEq, Repr

/-- A Python value as returned by a control variable `get()` (or the
empty string substituted for a faulted environmental reading). -/
inductive TkValue where
  | s (v : String)
  | i (v : Int)
  | d (v : PyDec)
  | b (v : Bool)
deriving DecidableEq, Repr

/-- The seventeen fields of `DataRecordForm._vars`. -/
inductive FormField where
  | date
  | time
  | technician
  | lab
  | plot
  | seedSample
  | humidity
  | light
  | temperature
  | equipmentFault
  | plants
  | blossoms
  | fruit
  | minHeight
  | maxHeight
  | medHeight
  | notes
deriving DecidableEq, Repr, Fintype

/-- The dictionary key of each field in `DataRecordForm._vars`. -/
def fieldName : FormField → String
  | .date => "Date"
  | .time => "Time"
  | .technician => "Technician"
  | .lab => "Lab"
  | .plot => "Plot"
  | .seedSample => "Seed Sample"
  | .humidity => "Humidity"
  | .light => "Light"
  | .temperature => "Temperature"
  | .equipmentFault => "Equipment Fault"
  | .plants => "Plants"
  | .blossoms => "Blossoms"
  | .fruit => "Fruit"
  | .minHeight => "Min Height"
  | .maxHeight => "Max Height"
  | .medHeight => "Med Height"
  | .notes => "Notes"

/-- The control-variable class of each field (lines 110-128). -/
def varKind : FormField → VarKind
  | .date => .str
  | .time => .str
  | .technician => .str
  | .lab => .str
  | .plot => .int
  | .seedSample => .str
  | .humidity => .double
  | .light => .double
  | .temperature => .double
  | .equipmentFault => .boolean
  | .plants => .int
  | .blossoms => .int
  | .fruit => .int
  | .minHeight => .double
  | .maxHeight => .double
  | .medHeight => .double
  | .notes => .str

/-- Insertion order of `DataRecordForm._vars`, which is the iteration
order of `self._vars.items()` and hence the CSV column order. -/
def fieldOrder : List FormField :=
  [.date, .time, .technician, .lab, .plot, .seedSample,
   .humidity, .light, .temperature, .equipmentFault,
   .plants, .blossoms, .fruit, .minHeight, .maxHeight, .medHeight, .notes]

/-- The tuple `("Light", "Humidity", "Temperature")` tested in
`DataRecordForm.get`. -/
def envFields : List FormField :=
  [.light, .humidity, .temperature]

/-- A form state: the string each field's Tcl variable currently holds. -/
abbrev FormState : Type := FormField → String

/-- Models `Tcl_GetInt` as used by `IntVar.get()` on plain decimal
strings: an optional sign followed by at least one digit (hexadecimal and
whitespace-padded forms are out of scope); `none` is a `TclError`. -/
def parseTclInt (s : String) : Option Int :=
  let (neg, rest) :=
    match s.toList with
    | '-' :: t => (true, t)
    | '+' :: t => (false, t)
    | t => (false, t)
  if rest ≠ [] ∧ rest.all Char.isDigit then
    some (if neg then -(digitsToNat rest : Int) else (digitsToNat rest : Int))
  else none

/-- Models `Tcl_GetBoolean` as used by `BooleanVar.get()`: the full Tcl
boolean words, case-insensitively (prefix abbreviations are out of
scope); `none` is a `TclError`. -/
def parseTclBool (s : String) : Option Bool :=
  let t := String.mk (s.toList.map Char.toLower)
  if t ∈ ["1", "true", "yes", "on"] then some true
  else if t ∈ ["0", "false", "no", "off"] then some false
  else none

/-- `variable.get()` for each variable class; `none` is a `TclError`
(string variables never fail, numeric and boolean ones fail on contents
that do not convert).  `DoubleVar` conversion is modelled on plain
decimal strings by the same parser as `Decimal`. -/
def tkGet : VarKind → String → Option TkValue
  | .str, s => some (.s s)
  | .int, s => (parseTclInt s).map TkValue.i
  | .double, s => (parsePyDecimal s).map TkValue.d
  | .boolean, s => (parseTclBool s).map TkValue.b

/-- How `DataRecordForm.get` (lines 259-272) leaves the save attempt:
`valueErr` is the `ValueError` it raises when a loop read hits a
`TclError`; `uncaughtTcl` is a `TclError` from the initial
`self._vars["Equipment Fault"].get()`, which sits outside the
`try` block and escapes `get` (and `_on_save`) entirely. -/
inductive GetErr where
  | uncaughtTcl
  | valueErr (msg : String)
deriving DecidableEq, Repr

/-- Decidable equality of `Except` results, so that concrete save
outcomes can be checked by evaluation. -/
instance {e a : Type} [DecidableEq e] [DecidableEq a] : DecidableEq (Except e a) :=
  fun x y =>
  match x, y with
  | .error u, .error v =>
      if h : u = v then .isTrue (by rw [h]) else .isFalse (by simp [h])
  | .ok u, .ok v =>
      if h : u = v then .isTrue (by rw [h]) else .isFalse (by simp [h])
  | .error _, .ok _ => .isFalse (by simp)
  | .ok _, .error _ => .isFalse (by simp)

/-- One iteration of the loop of `DataRecordForm.get`: a faulted
environmental field is recorded as the empty string without reading its
variable, every other field is read from its variable, and a `TclError`
becomes the `ValueError` message of line 270. -/
def readFieldValue (st : FormState) (fault : Bool) (f : FormField) : Except String TkValue :=
  if fault && envFields.contains f then Except.ok (TkValue.s "")
  else
    match tkGet (varKind f) (st f) with
    | some v => Except.ok v
    | none => Except.error ("Error in field: " ++ fieldName f ++ ". Data is not saved!")

/-- The loop of `DataRecordForm.get` over the remaining fields, stopping
at the first failing read exactly as the raised `ValueError` does. -/
def formGetLoop (st : FormState) (fault : Bool) :
    List FormField → Except GetErr (List (FormField × TkValue))
  | [] => Except.ok []
  | f :: rest =>
      match readFieldValue st fault f with
      | Except.error msg => Except.error (GetErr.valueErr msg)
      | Except.ok v =>
          match formGetLoop st fault rest with
          | Except.error e => Except.error e
          | Except.ok tail => Except.ok ((f, v) :: tail)

/-- `DataRecordForm.get` (lines 259-272): read the Equipment Fault flag,
then assemble the record dictionary in `_vars` order. -/
def formGet (st : FormState) : Except GetErr (List (FormField × TkValue)) :=
  match tkGet VarKind.boolean (st FormField.equipmentFault) with
  | none => Except.error GetErr.uncaughtTcl
  | some fv =>
      let fault := match fv with | TkValue.b b => b | _ => false
      formGetLoop st fault fieldOrder

/-- `DataRecordForm.reset`: boolean variables are set to `False` (which
the Tcl store renders as "0"), all others to the empty string. -/
def resetForm (_st : FormState) : FormState :=
  fun f => if varKind f = VarKind.boolean then "0" else ""

/-- A CSV row of the per-day file, cell by cell. -/
abbrev CsvRow : Type := List TkValue

/-- The file system visible to the save handler: an association list from
file name to the rows of the file. -/
abbrev FileSys : Type := List (String × List CsvRow)

/-- Look up a file. -/
def fsFind : FileSys → String → Option (List CsvRow)
  | [], _ => none
  | (n, rs) :: t, name => if n = name then some rs else fsFind t name

/-- `Path(filename).exists()`. -/
def fsExists (fs : FileSys) (name : String) : Bool :=
  (fsFind fs name).isSome

/-- Opening a file in append mode and writing rows: an existing file
keeps its rows and gains the new ones, a missing file is created. -/
def fsAppend : FileSys → String → List CsvRow → FileSys
  | [], name, rows => [(name, rows)]
  | (n, rs) :: t, name, rows =>
      if n = name then (n, rs ++ rows) :: t else (n, rs) :: fsAppend t name rows

/-- The header row `csvwriter.writeheader()` emits: the field names in
`data.keys()` order. -/
def headerRowOf (data : List (FormField × TkValue)) : CsvRow :=
  data.map (fun p => TkValue.s (fieldName p.fst))

/-- The data row `csvwriter.writerow(data)` emits: the values in
fieldnames order. -/
def dataRowOf (data : List (FormField × TkValue)) : CsvRow :=
  data.map Prod.snd

/-- The state `Application._on_save` acts on: the form variables, the
file system, the session save counter `_records_saved`, and the status
variable. -/
structure AppState where
  form : FormState
  fs : FileSys
  recordsSaved : Nat
  status : String

/-- `Application._on_save` (lines 517-539), with `today` the current date
already formatted by `datetime.today().strftime("%Y-%m-%d")`: compute
the per-day file name, remember whether the file exists, read the form --
an uncaught `TclError` escapes the callback leaving every component
untouched, a `ValueError` is caught and its message put into the status
variable -- and on success append (header and) data row, bump the
counter, report, and reset the form. -/
def onSave (today : String) (a : AppState) : AppState :=
  let filename := "abq_data_record_" ++ today ++ ".csv"
  let newfile := !(fsExists a.fs filename)
  match formGet a.form with
  | Except.error GetErr.uncaughtTcl => a
  | Except.error (GetErr.valueErr msg) => { a with status := msg }
  | Except.ok data =>
      let rows := (if newfile then [headerRowOf data] else []) ++ [dataRowOf data]
      { form := resetForm a.form
        fs := fsAppend a.fs filename rows
        recordsSaved := a.recordsSaved + 1
        status := toString (a.recordsSaved + 1) ++ " records saved this session." }

/-- The spinbox configurations built in `DataRecordForm.__init__`
(`from_`, `to`, and the precision computed from `str(increment)`;
the three plant-count spinboxes use the default increment "1.0"). -/
def humidityCfg : SpinConfig := ⟨⟨5, -1⟩, ⟨52, 0⟩, precisionOf "0.01"⟩

def lightCfg : SpinConfig := ⟨⟨0, 0⟩, ⟨100, 0⟩, precisionOf "0.01"⟩

def temperatureCfg : SpinConfig := ⟨⟨4, 0⟩, ⟨40, 0⟩, precisionOf "0.01"⟩

def plantsCfg : SpinConfig := ⟨⟨0, 0⟩, ⟨20, 0⟩, precisionOf "1.0"⟩

def blossomsCfg : SpinConfig := ⟨⟨0, 0⟩, ⟨1000, 0⟩, precisionOf "1.0"⟩

def fruitCfg : SpinConfig := ⟨⟨0, 0⟩, ⟨1000, 0⟩, precisionOf "1.0"⟩

/-- Whether a field currently passes the focus-out rule of the widget it
is wired to in `DataRecordForm.__init__`; the Min/Max/Median Height
spinboxes, the Equipment Fault checkbox and the Notes text have no
validation attached and pass trivially. -/
def fieldFocusoutValid (st : FormState) : FormField → Bool
  | .date => (dateFocusoutValidate (st .date)).fst
  | .time => (comboFocusoutValidate (st .time)).fst
  | .technician => (requiredFocusoutValidate (st .technician)).fst
  | .lab => radioFocusoutValid (st .lab)
  | .plot => (comboFocusoutValidate (st .plot)).fst
  | .seedSample => (requiredFocusoutValidate (st .seedSample)).fst
  | .humidity => spinFocusoutValid humidityCfg (st .humidity)
  | .light => spinFocusoutValid lightCfg (st .light)
  | .temperature => spinFocusoutValid temperatureCfg (st .temperature)
  | .equipmentFault => true
  | .plants => spinFocusoutValid plantsCfg (st .plants)
  | .blossoms => spinFocusoutValid blossomsCfg (st .blossoms)
  | .fruit => spinFocusoutValid fruitCfg (st .fruit)
  | .minHeight => true
  | .maxHeight => true
  | .medHeight => true
  | .notes => true

/-- Aggregate validity of the whole form. -/
def allFieldsValid (st : FormState) : Bool :=
  fieldOrder.all (fieldFocusoutValid st)

/-- The date format the specification describes, by its words: four-digit
year, two-digit month, two-digit day, separated by hyphens, denoting a
real calendar date. -/
def isoStrictDate (s : String) : Bool :=
  match splitOnChar '-' s.toList with
  | [ys, ms, ds] =>
      ys.length == 4 && ys.all Char.isDigit &&
      ms.length == 2 && ms.all Char.isDigit &&
      ds.length == 2 && ds.all Char.isDigit &&
      (let y := digitsToNat ys
       let m := digitsToNat ms
       let d := digitsToNat ds
       decide (1 ≤ y) && decide (1 ≤ m) && m ≤ 12 && decide (1 ≤ d) && d ≤ daysInMonth y m)
  | _ => false

/-- The spinbox per-keystroke rule exactly as the specification words it:
character must be a hyphen, a point or a digit; a hyphen only at index 0
and only under a negative minimum; a point only under a fractional
increment and with no point in the current text; the lone texts "-" and
"." accepted; any other text judged by its decimal value (a text with no
decimal value cannot satisfy the value test). -/
def specSpinKeyClaim (cfg : SpinConfig) (char : Char) (index current proposed : String) : Bool :=
  if !(("-1234567890." : String).toList.contains char) then false
  else if (char = '-') && (!(decide (cfg.min.m < 0)) || !(index = "0")) then false
  else if (char = '.') && (!(decide (cfg.precision < 0)) || current.toList.contains '.') then false
  else if proposed = "-" ∨ proposed = "." then true
  else
    match parsePyDecimal proposed with
    | none => false
    | some d => !(pyDecLt cfg.max d || decide (d.e < cfg.precision))

/-- The spinbox per-keystroke rule as amended: identical to the
specification's rule except that the texts "-." and "" are also accepted
outright, which is what the substring test `proposed in "-."` of the
source admits. -/
def specSpinKeyAmended (cfg : SpinConfig) (char : Char) (index current proposed : String) : Bool :=
  if !(("-1234567890." : String).toList.contains char) then false
  else if (char = '-') && (!(decide (cfg.min.m < 0)) || !(index = "0")) then false
  else if (char = '.') && (!(decide (cfg.precision < 0)) || current.toList.contains '.') then false
  else if proposed = "" ∨ proposed = "-" ∨ proposed = "." ∨ proposed = "-." then true
  else
    match parsePyDecimal proposed with
    | none => false
    | some d => !(pyDecLt cfg.max d || decide (d.e < cfg.precision))

/-- The value the record carries for a field, given the Equipment Fault
flag: the empty string for a faulted environmental field, the variable's
converted value otherwise. -/
def recordValue (st : FormState) (fault : Bool) (f : FormField) : TkValue :=
  if fault && envFields.contains f then TkValue.s ""
  else (tkGet (varKind f) (st f)).getD (TkValue.s "")

/-- Concrete form state used as counterexample input: every variable
holds a value its `get()` converts, but the Date field holds
"2021-13-45", a string the per-keystroke date rule lets through (digits
and hyphens in the right positions) that fails the date focus-out rule. -/
def cexForm : FormState :=
  fun f => match f with
  | .date => "2021-13-45"
  | .time => "8:00"
  | .technician => "Mary"
  | .lab => "A"
  | .plot => "1"
  | .seedSample => "AXM477"
  | .humidity => "24.5"
  | .light => "12.0"
  | .temperature => "21.5"
  | .equipmentFault => "0"
  | .plants => "5"
  | .blossoms => "2"
  | .fruit => "1"
  | .minHeight => "1.0"
  | .maxHeight => "3.0"
  | .medHeight => "2.0"
  | .notes => ""

/-- Concrete form state with every field valid and the Equipment Fault
box checked. -/
def faultForm : FormState :=
  fun f => match f with
  | .date => "2021-11-03"
  | .time => "12:00"
  | .technician => "Joan"
  | .lab => "B"
  | .plot => "2"
  | .seedSample => "AXM478"
  | .humidity => "30.5"
  | .light => "40.0"
  | .temperature => "22.0"
  | .equipmentFault => "1"
  | .plants => "10"
  | .blossoms => "3"
  | .fruit => "2"
  | .minHeight => "1.5"
  | .maxHeight => "4.0"
  | .medHeight => "2.5"
  | .notes => "ok"

/-- Concrete form state whose Plot variable (an `IntVar`) holds the empty
string, so its read raises `TclError` inside the loop. -/
def badPlotForm : FormState :=
  fun f => match f with
  | .date => "2021-11-03"
  | .time => "12:00"
  | .technician => "Joan"
  | .lab => "B"
  | .plot => ""
  | .seedSample => "AXM478"
  | .humidity => "30.5"
  | .light => "40.0"
  | .temperature => "22.0"
  | .equipmentFault => "0"
  | .plants => "10"
  | .blossoms => "3"
  | .fruit => "2"
  | .minHeight => "1.5"
  | .maxHeight => "4.0"
  | .medHeight => "2.5"
  | .notes => "ok"

/-- Call sequence delivered to a `RequiredEntry`: a focus-out while the
widget is empty (which fails and latches the error), then a focus-in and
one accepted keystroke. -/
def cexCalls : List WidgetCall :=
  [⟨"", ⟨"", "", "", "focusout", "-1", "-1"⟩⟩,
   ⟨"", ⟨"", "", "", "focusin", "-1", "-1"⟩⟩,
   ⟨"", ⟨"M", "", "M", "key", "0", "1"⟩⟩]

/-- An enabled widget in its initial state. -/
def initWState : WState := ⟨"", Fg.black, false⟩

/-- Appending rows to a file leaves that file holding its old rows (none
for a previously missing file) followed by the new ones. -/
theorem fsFind_fsAppend_self (fs : FileSys) (name : String) (rows : List CsvRow) :
    fsFind (fsAppend fs name rows) name = some ((fsFind fs name).getD [] ++ rows) := by
  induction fs with
  | nil => simp [fsAppend, fsFind]
  | cons hd t ih =>
    obtain ⟨n, rs⟩ := hd
    by_cases h : n = name
    · subst h
      simp [fsAppend, fsFind]
    · simp [fsAppend, fsFind, h, ih]

/-- Appending rows to one file leaves every other file untouched. -/
theorem fsFind_fsAppend_other (fs : FileSys) (name other : String) (rows : List CsvRow)
    (h : other ≠ name) :
    fsFind (fsAppend fs name rows) other = fsFind fs other := by
  induction fs with
  | nil =>
    have : name ≠ other := fun hh => h hh.symm
    simp [fsAppend, fsFind, this]
  | cons hd t ih =>
    obtain ⟨n, rs⟩ := hd
    by_cases hn : n = name
    · subst hn
      have : n ≠ other := fun hh => h hh.symm
      simp [fsAppend, fsFind, this]
    · by_cases ho : n = other
      · subst ho
        simp [fsAppend, fsFind, hn]
      · simp [fsAppend, fsFind, hn, ho, ih]

/-- A validation round never changes the disabled flag. -/
theorem validateEvent_disabled (r : VRules) (st : WState) (content : String) (ev : VEvent) :
    ((validateEvent r st content ev).snd).disabled = st.disabled := by
  unfold validateEvent
  dsimp only []
  split_ifs <;> rfl

/-- Unfolding one call of a widget run. -/
theorem runWidget_cons (r : VRules) (st : WState) (c : WidgetCall) (cs : List WidgetCall) :
    runWidget r st (c :: cs) = runWidget r ((validateEvent r st c.content c.ev).snd) cs := rfl

/-- A widget run never changes the disabled flag. -/
theorem runWidget_disabled (r : VRules) (st : WState) (calls : List WidgetCall) :
    (runWidget r st calls).disabled = st.disabled := by
  induction calls generalizing st with
  | nil => rfl
  | cons c cs ih =>
    rw [runWidget_cons, ih, validateEvent_disabled]

/-- A failing field read fails because its variable did not convert, and
the raised message names the field. -/
theorem readFieldValue_error (st : FormState) (fault : Bool) (f : FormField) (m : String)
    (h : readFieldValue st fault f = Except.error m) :
    m = "Error in field: " ++ fieldName f ++ ". Data is not saved!" ∧
      tkGet (varKind f) (st f) = none := by
  unfold readFieldValue at h
  split at h
  · exact Except.noConfusion h
  · cases hg : tkGet (varKind f) (st f) with
    | none =>
      rw [hg] at h
      exact ⟨((Except.error.injEq _ _).mp h).symm, rfl⟩
    | some v =>
      rw [hg] at h
      exact Except.noConfusion h

/-- When every remaining read succeeds, the loop of `DataRecordForm.get`
returns the fields paired with their record values, in order. -/
theorem formGetLoop_ok (st : FormState) (fault : Bool) (l : List FormField)
    (h : ∀ f ∈ l, readFieldValue st fault f = Except.ok (recordValue st fault f)) :
    formGetLoop st fault l = Except.ok (l.map (fun f => (f, recordValue st fault f))) := by
  induction l with
  | nil => rfl
  | cons f rest ih =>
    have hf := h f (by simp)
    have hr := ih (fun g hg => h g (by simp [hg]))
    simp [formGetLoop, hf, hr]

/-- When the loop of `DataRecordForm.get` raises, the message names a
field of the list whose variable did not convert. -/
theorem formGetLoop_error (st : FormState) (fault : Bool) (l : List FormField) (msg : String)
    (h : formGetLoop st fault l = Except.error (GetErr.valueErr msg)) :
    ∃ f ∈ l, msg = "Error in field: " ++ fieldName f ++ ". Data is not saved!" ∧
      tkGet (varKind f) (st f) = none := by
  induction l with
  | nil => simp [formGetLoop] at h
  | cons f rest ih =>
    dsimp [formGetLoop] at h
    cases hrf : readFieldValue st fault f with
    | error m =>
      rw [hrf] at h
      simp only [Except.error.injEq, GetErr.valueErr.injEq] at h
      obtain ⟨hm, hg⟩ := readFieldValue_error st fault f m hrf
      exact ⟨f, by simp, by rw [← h, hm], hg⟩
    | ok v =>
      rw [hrf] at h
      cases hrest : formGetLoop st fault rest with
      | error e =>
        rw [hrest] at h
        simp only [Except.error.injEq] at h
        obtain ⟨g, hgmem, hgm, hgn⟩ := ih (by rw [hrest, h])
        exact ⟨g, by simp [hgmem], hgm, hgn⟩
      | ok tail => rw [hrest] at h; simp at h

/-- The decimal string of a number below ten is its digit. -/
theorem natToDecString_small (n : Nat) (h : n < 10) :
    natToDecString n = String.singleton (Char.ofNat (48 + n)) := by
  unfold natToDecString natToDecAux
  rw [if_pos h]
  rfl

/-- The decimal string of a number of at least ten has at least two
characters. -/
theorem natToDecString_length_ge_two (n : Nat) (h : 10 ≤ n) :
    2 ≤ (natToDecString n).length := by
  unfold natToDecString natToDecAux
  simp only [Nat.not_lt.mpr h, if_false]
  have hfuel : ∃ fuel, n / 10 < fuel + 1 ∧ natToDecAux (fuel + 1) (n / 10) ≠ [] := by
    refine ⟨n - 1, by omega, ?_⟩
    unfold natToDecAux
    split
    · simp
    · simp
  obtain ⟨fuel, -, -⟩ := hfuel
  have hne : natToDecAux n (n / 10) ≠ [] := by
    cases hn : n with
    | zero => omega
    | succ k =>
      unfold natToDecAux
      split
      · simp
      · simp
  have hpos : 1 ≤ (natToDecAux n (n / 10)).length := by
    cases hlist : natToDecAux n (n / 10) with
    | nil => exact absurd hlist hne
    | cons a t => simp
  have : (String.mk (natToDecAux n (n / 10) ++ [Char.ofNat (48 + n % 10)])).length =
      (natToDecAux n (n / 10)).length + 1 := by
    simp [String.length]
  omega

/-- C3: the validation framework dispatches on the event type: on an
enabled widget a "key" event is decided by the key rule, a "focusout"
event by the focus-out rule, any other event type is accepted, and on a
disabled widget every validation call returns valid. -/
theorem mixin_validate_dispatch (r : VRules) (st : WState) (content : String) (ev : VEvent) :
    (validateEvent r st content ev).fst =
      (if st.disabled then true
       else if ev.event = "focusout" then (r.focusoutValidate content).fst
       else if ev.event = "key" then r.keyValidate ev
       else true) := by
  by_cases h1 : st.disabled
  · simp [validateEvent, h1]
  · by_cases h2 : ev.event = "focusout"
    · by_cases h3 : (r.focusoutValidate content).fst
      · simp [validateEvent, h1, h2, h3]
      · simp [validateEvent, h1, h2, h3]
    · by_cases h4 : ev.event = "key"
      · simp [validateEvent, h1, h2, h4]
      · simp [validateEvent, h1, h2, h4]

/-- C4, counterexample: after a failed focus-out on an empty
`RequiredEntry` followed by a focus-in and one keystroke, the most recent
focus-out validation failed, yet the error variable is empty -- every
validation call clears it -- so a non-empty error is not present exactly
when the most recent focus-out validation failed. -/
theorem error_state_not_latched_cex :
    lastFocusoutFailed requiredEntryRules cexCalls = true ∧
      (runWidget requiredEntryRules initWState cexCalls).error = "" := by
  decide

/-- C4, amended: on a `RequiredEntry`, after any call sequence the error
variable holds the required-value message and the foreground is red
exactly when the most recent validation call was a focus-out performed
while the widget was enabled and empty; otherwise the error variable is
empty and the foreground black. -/
theorem error_state_reflects_last_validation_call
    (st : WState) (calls : List WidgetCall) (c : WidgetCall) :
    (runWidget requiredEntryRules st (calls ++ [c])).error =
      (if st.disabled = false ∧ c.ev.event = "focusout" ∧ c.content = ""
       then "A value is required" else "") ∧
    (runWidget requiredEntryRules st (calls ++ [c])).fg =
      (if st.disabled = false ∧ c.ev.event = "focusout" ∧ c.content = ""
       then Fg.red else Fg.black) := by
  have hfold : runWidget requiredEntryRules st (calls ++ [c]) =
      (validateEvent requiredEntryRules (runWidget requiredEntryRules st calls)
        c.content c.ev).snd := by
    unfold runWidget
    rw [List.foldl_append]
    rfl
  have hdis : (runWidget requiredEntryRules st calls).disabled = st.disabled :=
    runWidget_disabled _ _ _
  have hfo : ∀ s, requiredEntryRules.focusoutValidate s = requiredFocusoutValidate s :=
    fun _ => rfl
  rw [hfold]
  by_cases h1 : st.disabled
  · simp [validateEvent, hdis, h1]
  · by_cases h2 : c.ev.event = "focusout"
    · by_cases h3 : c.content = ""
      · simp [validateEvent, hdis, h1, h2, h3, hfo, requiredFocusoutValidate]
      · simp [validateEvent, hdis, h1, h2, h3, hfo, requiredFocusoutValidate]
    · by_cases h4 : c.ev.event = "key"
      · simp [validateEvent, hdis, h1, h2, h4]
      · simp [validateEvent, hdis, h1, h2, h4]

/-- C6, counterexample: the date focus-out rule accepts "2021-1-3",
whose month and day are not two-digit, because `strptime` with format
"%Y-%m-%d" also matches one-digit months and days; the claimed format
(four-digit year, two-digit month, two-digit day) rejects it. -/
theorem date_focusout_accepts_single_digit_month_cex :
    (dateFocusoutValidate "2021-1-3") = (true, "") ∧ isoStrictDate "2021-1-3" = false := by
  decide

/-- C6, amended: the date focus-out rule judges the content valid exactly
when `strptime` parses it with format "%Y-%m-%d" -- exactly four digits
of year (at least 0001), one OR two digits of month and of day, hyphens
between, denoting a real calendar date -- and on failure leaves the
message "Invalid date" in the error variable; the empty string always
fails. -/
theorem date_focusout_strptime_rule (s : String) :
    dateFocusoutValidate s = (strptimeYmd s, if strptimeYmd s then "" else "Invalid date") ∧
    strptimeYmd "" = false := by
  refine ⟨?_, by decide⟩
  by_cases hs : s = ""
  · subst hs; decide
  · unfold dateFocusoutValidate
    simp only [hs, if_false]
    cases h : strptimeYmd s <;> simp [h]

/-- C7: the dropdown per-keystroke rule: a deletion clears the widget's
value and is accepted; an insertion is rejected when no listed value
starts case-insensitively with the proposed text; a unique match installs
the full value, moves the cursor to the end, and rejects the keystroke;
two or more matches accept it; and on focus-out an empty selection is
invalid with the required-value message. -/
theorem combobox_rules (values : List String) (proposed action : String) :
    comboKeyValidate values proposed action =
      (if action = "0" then { valid := true, setTo := some "", cursorToEnd := false }
       else
         if (values.filter (fun x => x.toLower.startsWith proposed.toLower)).length = 0 then
           { valid := false, setTo := none, cursorToEnd := false }
         else if (values.filter (fun x => x.toLower.startsWith proposed.toLower)).length = 1 then
           { valid := false,
             setTo := some ((values.filter (fun x => x.toLower.startsWith proposed.toLower)).headD "")
             cursorToEnd := true }
         else { valid := true, setTo := none, cursorToEnd := false }) ∧
    comboFocusoutValidate "" = (false, "A value is required") := by
  refine ⟨?_, by decide⟩
  by_cases ha : action = "0"
  · simp [comboKeyValidate, ha]
  · simp only [comboKeyValidate, ha, if_false]
    cases h : values.filter (fun x => x.toLower.startsWith proposed.toLower) with
    | nil => simp
    | cons x t =>
      cases t with
      | nil => simp
      | cons y t2 =>
        simp only [List.length_cons]
        split_ifs <;> first | rfl | (exfalso; omega) | simp_all

/-- A decimal string of a number of at least ten is none of a list of
one-character strings. -/
theorem natToDecString_not_mem_singles (i : Nat) (h10 : 10 ≤ i) (l : List String)
    (hl : ∀ s ∈ l, s.length = 1) : natToDecString i ∉ l := by
  intro hm
  have h2 := natToDecString_length_ge_two i h10
  have h1 := hl _ hm
  omega

/-- C5: the date per-keystroke rule: any deletion is accepted, and an
insertion of character `c` at (decimal) index `i` is accepted exactly
when `c` is a decimal digit and `i` is one of 0, 1, 2, 3, 5, 6, 8, 9, or
`c` is a hyphen and `i` is 4 or 7; in particular every insertion at index
10 or beyond is rejected, those indexes being in none of the compared
lists. -/
theorem date_entry_key_rule (i : Nat) (c : Char) (idx : String) :
    dateKeyValidate "0" idx c = true ∧
    dateKeyValidate "1" (natToDecString i) c =
      ((decide (i ∈ ([0, 1, 2, 3, 5, 6, 8, 9] : List Nat)) && pyCharIsdigit c) ||
       (decide (i = 4 ∨ i = 7) && decide (c = '-'))) := by
  constructor
  · simp [dateKeyValidate]
  · by_cases h : i < 10
    · interval_cases i <;>
        simp [dateKeyValidate, pyCharIsdigit,
          show natToDecString 0 = "0" from by decide,
          show natToDecString 1 = "1" from by decide,
          show natToDecString 2 = "2" from by decide,
          show natToDecString 3 = "3" from by decide,
          show natToDecString 4 = "4" from by decide,
          show natToDecString 5 = "5" from by decide,
          show natToDecString 6 = "6" from by decide,
          show natToDecString 7 = "7" from by decide,
          show natToDecString 8 = "8" from by decide,
          show natToDecString 9 = "9" from by decide]
    · have h10 : 10 ≤ i := Nat.not_lt.mp h
      have hm1 : natToDecString i ∉ (["0", "1", "2", "3", "5", "6", "8", "9"] : List String) :=
        natToDecString_not_mem_singles i h10 _ (by decide)
      have hm2 : natToDecString i ∉ (["4", "7"] : List String) :=
        natToDecString_not_mem_singles i h10 _ (by decide)
      have hr1 : i ∉ ([0, 1, 2, 3, 5, 6, 8, 9] : List Nat) := by
        intro hm
        fin_cases hm <;> omega
      have hr2 : ¬(i = 4 ∨ i = 7) := by omega
      simp [dateKeyValidate, hm1, hm2, hr1, hr2]

/-- C8, counterexample: on a spinbox configured with a negative minimum
and a fractional increment (constructor arguments `from_=-10`, `to=10`,
`increment=0.01`), typing "." after a lone "-" proposes the text "-.",
which the source accepts because the Python membership test
`proposed in "-."` is a substring test; the claimed rule (lone "-" or
"." accepted, anything else judged by its decimal value) rejects it,
"-." having no decimal value. -/
theorem spinbox_accepts_minus_dot_cex :
    spinKeyValidate ⟨⟨-10, 0⟩, ⟨10, 0⟩, -2⟩ '.' "1" "-" "-." "1" = some true ∧
    specSpinKeyClaim ⟨⟨-10, 0⟩, ⟨10, 0⟩, -2⟩ '.' "1" "-" "-." = false := by
  decide

/-- The stage of the spinbox key rule after the character tests: the
source accepts the substrings of "-." outright and otherwise judges the
parsed decimal, which is exactly the amended rule's tail whenever the
proposed text is such a substring or parses. -/
theorem spinKeyTail_eq (cfg : SpinConfig) (proposed : String)
    (hp : proposed = "" ∨ proposed = "-" ∨ proposed = "." ∨ proposed = "-." ∨
      (parsePyDecimal proposed).isSome = true) :
    (if proposed = "" ∨ proposed = "-" ∨ proposed = "." ∨ proposed = "-." then
       some true
     else
       match parsePyDecimal proposed with
       | none => none
       | some d => if pyDecLt cfg.max d ∨ d.e < cfg.precision then some false else some true) =
    some (if proposed = "" ∨ proposed = "-" ∨ proposed = "." ∨ proposed = "-." then
            true
          else
            match parsePyDecimal proposed with
            | none => false
            | some d => !(pyDecLt cfg.max d || decide (d.e < cfg.precision))) := by
  by_cases hsp : proposed = "" ∨ proposed = "-" ∨ proposed = "." ∨ proposed = "-."
  · simp [hsp]
  · have hsome : (parsePyDecimal proposed).isSome = true := by
      rcases hp with h | h | h | h | h
      · exact absurd (Or.inl h) hsp
      · exact absurd (Or.inr (Or.inl h)) hsp
      · exact absurd (Or.inr (Or.inr (Or.inl h))) hsp
      · exact absurd (Or.inr (Or.inr (Or.inr h))) hsp
      · exact h
    obtain ⟨d, hd⟩ := Option.isSome_iff_exists.mp hsome
    by_cases hv : pyDecLt cfg.max d = true ∨ d.e < cfg.precision
    · rcases hv with h | h
      · simp [hsp, hd, h]
      · have hor : pyDecLt cfg.max d = true ∨ d.e < cfg.precision := Or.inr h
        simp [hsp, hd, hor, h]
    · obtain ⟨h1, h2⟩ := not_or.mp hv
      have h1b : pyDecLt cfg.max d = false := by
        cases hb : pyDecLt cfg.max d
        · rfl
        · exact absurd hb h1
      simp [hsp, hd, hv, h1b]
      simp [h2]

/-- C8, amended: the spinbox per-keystroke rule as the specification
states it, except that besides the lone texts "-" and "." the substrings
"-." and "" of the source's containment test are also accepted outright;
deletions are always accepted, and the minimum never causes a key-time
rejection (the rule below consults the minimum only for the sign test).
The hypothesis restricts to proposed texts that are such substrings or
parse as decimals; on any other text the source raises an uncaught
`InvalidOperation`. -/
theorem spinbox_key_rule_amended (cfg : SpinConfig) (char : Char) (index current proposed : String)
    (hp : proposed = "" ∨ proposed = "-" ∨ proposed = "." ∨ proposed = "-." ∨
      (parsePyDecimal proposed).isSome = true) :
    spinKeyValidate cfg char index current proposed "1" =
      some (specSpinKeyAmended cfg char index current proposed) ∧
    spinKeyValidate cfg char index current proposed "0" = some true := by
  constructor
  · have hA : (decide (0 ≤ cfg.min.m) : Bool) = !decide (cfg.min.m < 0) := by
      by_cases hm : cfg.min.m < 0
      · have hn : ¬(0 ≤ cfg.min.m) := by omega
        simp [hm, hn]
      · have hn : 0 ≤ cfg.min.m := by omega
        simp [hm, hn]
    have hB : (decide (0 ≤ cfg.precision) : Bool) = !decide (cfg.precision < 0) := by
      by_cases hm : cfg.precision < 0
      · have hn : ¬(0 ≤ cfg.precision) := by omega
        simp [hm, hn]
      · have hn : 0 ≤ cfg.precision := by omega
        simp [hm, hn]
    unfold spinKeyValidate specSpinKeyAmended
    dsimp only
    rw [if_neg (show ¬("1" : String) = "0" by decide)]
    rw [hA, hB]
    cases hC : ("-1234567890." : String).toList.contains char with
    | false => simp
    | true =>
      cases hA2 : (decide (char = '-') && (!decide (cfg.min.m < 0) || !decide (index = "0"))) with
      | true => simp
      | false =>
        cases hB2 : (decide (char = '.') &&
            (!decide (cfg.precision < 0) || current.toList.contains '.')) with
        | true => simp
        | false => simpa using spinKeyTail_eq cfg proposed hp
  · rfl

/-- Witness for the amended spinbox key rule at the Humidity
configuration: "12.5" parses, and typing its final digit is accepted. -/
theorem spinbox_key_rule_amended_witness :
    (parsePyDecimal "12.5").isSome = true ∧
    spinKeyValidate humidityCfg '5' "3" "12." "12.5" "1" =
      some (specSpinKeyAmended humidityCfg '5' "3" "12." "12.5") :=
  ⟨by decide,
   (spinbox_key_rule_amended humidityCfg '5' "3" "12." "12.5"
      (Or.inr (Or.inr (Or.inr (Or.inr (by decide)))))).1⟩

/-- Concrete form state with every field valid and the Equipment Fault
box unchecked. -/
def okForm : FormState :=
  fun f => match f with
  | .date => "2021-11-04"
  | .time => "16:00"
  | .technician => "Ada"
  | .lab => "C"
  | .plot => "3"
  | .seedSample => "AXM479"
  | .humidity => "28.5"
  | .light => "35.0"
  | .temperature => "23.0"
  | .equipmentFault => "0"
  | .plants => "12"
  | .blossoms => "4"
  | .fruit => "3"
  | .minHeight => "2.0"
  | .maxHeight => "5.0"
  | .medHeight => "3.5"
  | .notes => "fine"

/-- The Equipment Fault checkbox variable holds one of the Tcl booleans
"0" and "1", and both convert, so the read before the loop of
`DataRecordForm.get` never raises. -/
theorem tkGet_boolean_checkbox (s : String) (hs : s = "0" ∨ s = "1") :
    (tkGet VarKind.boolean s).isSome = true := by
  rcases hs with h | h <;> subst h <;> decide

/-- C1, counterexample: in the state `cexForm` the Date field holds
"2021-13-45", which fails its focus-out validation rule (month 13), so
the form is not aggregately valid; yet the save handler, which never
consults the validation rules, writes the record: the per-day file is
created with a header row and one data row. -/
theorem save_ignores_validation_cex :
    fieldFocusoutValid cexForm FormField.date = false ∧
    allFieldsValid cexForm = false ∧
    (fsFind (onSave "2026-10-12" ⟨cexForm, [], 0, ""⟩).fs
        "abq_data_record_2026-10-12.csv").map List.length = some 2 := by
  decide

/-- C1, amended: the save handler gates the write only on every variable
read succeeding, not on the validation rules: whenever
`DataRecordForm.get` returns a record, the record is written (with a
header when the per-day file is new), and whenever it fails nothing is
written. -/
theorem save_gated_only_on_variable_reads (today : String) (a : AppState) :
    (onSave today a).fs =
      (match formGet a.form with
       | Except.ok data =>
           fsAppend a.fs ("abq_data_record_" ++ today ++ ".csv")
             ((if fsExists a.fs ("abq_data_record_" ++ today ++ ".csv") then []
               else [headerRowOf data]) ++ [dataRowOf data])
       | Except.error _ => a.fs) := by
  unfold onSave
  dsimp only
  cases h : formGet a.form with
  | ok data =>
    by_cases he : fsExists a.fs ("abq_data_record_" ++ today ++ ".csv")
    · simp [he]
    · simp [he]
  | error e => cases e <;> simp

/-- C2: for every successful save, the per-day file named
`abq_data_record_<today>.csv` keeps its previous rows and gains exactly
the data row, preceded by a header row of the field names exactly when
the file did not exist before the save; every other file is untouched. -/
theorem save_appends_to_per_day_csv (today : String) (a : AppState)
    (data : List (FormField × TkValue)) (h : formGet a.form = Except.ok data) :
    fsFind (onSave today a).fs ("abq_data_record_" ++ today ++ ".csv") =
      some ((fsFind a.fs ("abq_data_record_" ++ today ++ ".csv")).getD [] ++
        (if (fsFind a.fs ("abq_data_record_" ++ today ++ ".csv")).isSome then
           [dataRowOf data]
         else [headerRowOf data, dataRowOf data])) ∧
    (∀ other, other ≠ "abq_data_record_" ++ today ++ ".csv" →
      fsFind (onSave today a).fs other = fsFind a.fs other) := by
  have hfs : (onSave today a).fs =
      fsAppend a.fs ("abq_data_record_" ++ today ++ ".csv")
        ((if fsExists a.fs ("abq_data_record_" ++ today ++ ".csv") then []
          else [headerRowOf data]) ++ [dataRowOf data]) := by
    unfold onSave
    dsimp only
    rw [h]
    by_cases he : fsExists a.fs ("abq_data_record_" ++ today ++ ".csv")
    · simp [he]
    · simp [he]
  constructor
  · rw [hfs, fsFind_fsAppend_self]
    by_cases hex : (fsFind a.fs ("abq_data_record_" ++ today ++ ".csv")).isSome
    · simp [fsExists, hex]
    · simp [fsExists, hex]
  · intro other ho
    rw [hfs, fsFind_fsAppend_other _ _ _ _ ho]

/-- Witness for C2: a concrete valid form saved on an empty file system
creates the per-day file with header row and data row. -/
theorem save_appends_to_per_day_csv_witness :
    formGet okForm = Except.ok (fieldOrder.map (fun f => (f, recordValue okForm false f))) ∧
    fsFind (onSave "2026-01-05" ⟨okForm, [], 0, ""⟩).fs "abq_data_record_2026-01-05.csv" =
      some ((fsFind ([] : FileSys) "abq_data_record_2026-01-05.csv").getD [] ++
        (if (fsFind ([] : FileSys) "abq_data_record_2026-01-05.csv").isSome then
           [dataRowOf (fieldOrder.map (fun f => (f, recordValue okForm false f)))]
         else [headerRowOf (fieldOrder.map (fun f => (f, recordValue okForm false f))),
               dataRowOf (fieldOrder.map (fun f => (f, recordValue okForm false f)))])) :=
  ⟨by decide,
   (save_appends_to_per_day_csv "2026-01-05" ⟨okForm, [], 0, ""⟩ _ (by decide)).1⟩

/-- C9: when reading the form succeeds, the record pairs every field with
its record value: the empty string for the three environmental fields
when the Equipment Fault flag is set -- whatever their widgets hold --
and the variable's converted value for every other field (and for all
fields when the flag is clear). -/
theorem fault_blanks_environment_fields (st : FormState) (b : Bool)
    (hb : tkGet VarKind.boolean (st FormField.equipmentFault) = some (TkValue.b b))
    (hreads : ∀ f, (b && envFields.contains f) = false →
      (tkGet (varKind f) (st f)).isSome = true) :
    formGet st = Except.ok (fieldOrder.map (fun f => (f, recordValue st b f))) := by
  have hread : ∀ f ∈ fieldOrder, readFieldValue st b f = Except.ok (recordValue st b f) := by
    intro f _
    by_cases hf : (b && envFields.contains f) = true
    · unfold readFieldValue recordValue
      rw [if_pos hf, if_pos hf]
    · have hf2 : (b && envFields.contains f) = false := by
        cases hx : (b && envFields.contains f)
        · rfl
        · exact absurd hx hf
      obtain ⟨v, hv⟩ := Option.isSome_iff_exists.mp (hreads f hf2)
      unfold readFieldValue recordValue
      rw [if_neg hf, if_neg hf, hv]
      simp
  unfold formGet
  rw [hb]
  dsimp only
  exact formGetLoop_ok st b fieldOrder hread

/-- Witness for C9: in the state `faultForm` the checkbox is checked and
every other read succeeds, so the assembled record carries the blanked
environmental fields. -/
theorem fault_blanks_environment_fields_witness :
    tkGet VarKind.boolean (faultForm FormField.equipmentFault) = some (TkValue.b true) ∧
    formGet faultForm =
      Except.ok (fieldOrder.map (fun f => (f, recordValue faultForm true f))) :=
  ⟨by decide, fault_blanks_environment_fields faultForm true (by decide) (by decide)⟩

/-- C10: when a variable read inside the loop of `DataRecordForm.get`
raises `TclError`, the save handler stops before opening the file: the
file system, the saved-records counter and the form are unchanged, only
the status variable changes, and it is set to the raised message, which
names the offending field. -/
theorem save_error_atomicity (today : String) (a : AppState) (msg : String)
    (h : formGet a.form = Except.error (GetErr.valueErr msg)) :
    onSave today a = { a with status := msg } ∧
    ∃ f : FormField, msg = "Error in field: " ++ fieldName f ++ ". Data is not saved!" ∧
      tkGet (varKind f) (a.form f) = none := by
  constructor
  · unfold onSave
    dsimp only
    rw [h]
  · unfold formGet at h
    cases hb : tkGet VarKind.boolean (a.form FormField.equipmentFault) with
    | none => rw [hb] at h; exact absurd h (by simp)
    | some fv =>
      rw [hb] at h
      dsimp only at h
      obtain ⟨f, -, hm, hn⟩ := formGetLoop_error a.form _ fieldOrder msg h
      exact ⟨f, hm, hn⟩

/-- Witness for C10: with the Plot variable (an `IntVar`) holding the
empty string, the save leaves everything but the status untouched and
reports the Plot field. -/
theorem save_error_atomicity_witness :
    formGet badPlotForm =
      Except.error (GetErr.valueErr "Error in field: Plot. Data is not saved!") ∧
    onSave "2026-01-05" ⟨badPlotForm, [], 0, ""⟩ =
      { form := badPlotForm, fs := [], recordsSaved := 0,
        status := "Error in field: Plot. Data is not saved!" } :=
  ⟨by decide,
   (save_error_atomicity "2026-01-05" ⟨badPlotForm, [], 0, ""⟩ _ (by decide)).1⟩
